import Mathlib

/-!
# Verification of the optimizely-sdk-go bucketing and reporting engine

A shallow embedding of the Go sources of `spothero/optimizely-sdk-go`
(`bucketing.go`, `project.go`, `reporter.go`) together with theorems that
settle the spec's claims about it.

Modelling conventions:
* Go strings are modelled as Lean `String`; the byte view used by the hash
  is the UTF-8 encoding (`strBytes`).
* Go `map[string]T` values are modelled as association lists
  (`List (String × T)`) with first-match lookup; Go map insertion
  overwrites an existing key (`insertA`).
* Machine integers are modelled as `Nat`/`Int` with explicit reduction
  modulo `2^32` where 32-bit overflow matters.
* `time.Now()` is nondeterministic; the decision function receives the
  call's timestamp as an explicit parameter (nanoseconds, `Int`).
* Mutexes are dropped: the embedding is the sequential semantics, state is
  passed explicitly (`Project.getVariation` returns the updated `Project`).
* A Go `nil`-pointer dereference (a runtime panic) is modelled by an
  explicit result constructor, never conflated with a normal `nil` return.
-/

set_option autoImplicit false

namespace Optimizely

/-! ## Association lists standing for Go maps -/

/-- First-match lookup in an association list, modelling Go map indexing
`m[k]` together with its `ok` flag. -/
def lookupA {α : Type} : List (String × α) → String → Option α
  | [], _ => none
  | (k, v) :: rest, key => if k = key then some v else lookupA rest key

/-- Insertion `m[k] = v` into a Go map: overwrite the existing entry for the
key if present, otherwise append the new entry. -/
def insertA {α : Type} : List (String × α) → String → α → List (String × α)
  | [], key, v => [(key, v)]
  | (k, w) :: rest, key, v =>
    if k = key then (key, v) :: rest else (k, w) :: insertA rest key v

/-! ## MurmurHash3, 32-bit variant

Embedding of `murmur3.Sum32WithSeed` (the `github.com/spaolacci/murmur3`
dependency of `bucketing.go`), operating on the byte list of the input.
All intermediate values are kept below `2^32` by explicit reduction. -/

/-- Reduction modulo `2^32`, the wrap-around of Go's `uint32`. -/
def mod32 (n : Nat) : Nat := n % 4294967296

/-- 32-bit left rotation. -/
def rotl32 (x r : Nat) : Nat := mod32 (x <<< r) ||| (x >>> (32 - r))

/-- Mix of one little-endian 4-byte block (`k *= c1; k = rotl15 k; k *= c2`). -/
def murmurMixK (k : Nat) : Nat :=
  mod32 (rotl32 (mod32 (k * 0xcc9e2d51)) 15 * 0x1b873593)

/-- Body loop of MurmurHash3-32: consume the 4-byte blocks, returning the
running hash and the remaining tail bytes. -/
def murmurBlocks : Nat → List Nat → Nat × List Nat
  | h, b0 :: b1 :: b2 :: b3 :: rest =>
    let k := b0 + b1 * 256 + b2 * 65536 + b3 * 16777216
    let h1 := rotl32 (h ^^^ murmurMixK k) 13
    murmurBlocks (mod32 (h1 * 5 + 0xe6546b64)) rest
  | h, rest => (h, rest)

/-- Tail handling of MurmurHash3-32: fold in the last one to three bytes. -/
def murmurTail (h : Nat) : List Nat → Nat
  | [] => h
  | [t0] => h ^^^ murmurMixK t0
  | [t0, t1] => h ^^^ murmurMixK (t0 + t1 * 256)
  | [t0, t1, t2] => h ^^^ murmurMixK (t0 + t1 * 256 + t2 * 65536)
  | _ => h

/-- Final avalanche (`fmix32`). -/
def murmurFmix (h : Nat) : Nat :=
  let h1 := mod32 ((h ^^^ (h >>> 16)) * 0x85ebca6b)
  let h2 := mod32 ((h1 ^^^ (h1 >>> 13)) * 0xc2b2ae35)
  h2 ^^^ (h2 >>> 16)

/-- `murmur3.Sum32WithSeed data seed`: the 32-bit MurmurHash3 of the byte
list `data` with the given seed. -/
def murmur3Sum32WithSeed (data : List Nat) (seed : Nat) : Nat :=
  let bodyOut := murmurBlocks seed data
  murmurFmix (murmurTail bodyOut.1 bodyOut.2 ^^^ data.length)

/-- UTF-8 encoding of one character, as byte values. -/
def utf8EncodeChar (c : Char) : List Nat :=
  let n := c.toNat
  if n < 128 then [n]
  else if n < 2048 then [192 + n / 64, 128 + n % 64]
  else if n < 65536 then [224 + n / 4096, 128 + n / 64 % 64, 128 + n % 64]
  else [240 + n / 262144, 128 + n / 4096 % 64, 128 + n / 64 % 64, 128 + n % 64]

/-- Byte view of a Go string: the UTF-8 bytes of its characters. -/
def strBytes (s : String) : List Nat :=
  s.data.foldr (fun c acc => utf8EncodeChar c ++ acc) []

/-! ## Data model (`project.go`) -/

/-- `Variation`: a variation of an experiment (`project.go`). The Go
back-reference `experiment *Experiment` is a non-owning lookup handle; the
fields it is used to reach are carried on `Impression` instead. -/
structure Variation where
  id : String
  Key : String
  deriving Repr, DecidableEq

/-- `trafficAllocation`: one traffic-partition entry (`project.go`). -/
structure TrafficAllocation where
  endOfRange : Int
  Variation : Variation
  deriving Repr, DecidableEq

/-- `Experiment` (`project.go`): the mutex is dropped (sequential
semantics); the `project` back-reference is supplied by the owning
`Project` at the call sites that need it. -/
structure Experiment where
  Key : String
  id : String
  layerID : String
  status : String
  trafficAllocation : List TrafficAllocation
  forcedVariations : List (String × Variation)
  cachedVariations : List (String × Variation)
  deriving Repr, DecidableEq

/-- `Project` (`project.go`). `RawDataFile` (the retained source bytes) is
not modelled; construction starts from the parsed document. -/
structure Project where
  Version : String
  Revision : String
  ProjectID : String
  AccountID : String
  experiments : List (String × Experiment)
  deriving Repr, DecidableEq

/-- `Impression` (`bucketing.go`): outcome of bucketing a user. The Go
value embeds a `Variation` whose `experiment` back-reference reaches the
experiment's `id` and `layerID` and, through `experiment.project`, the
account id; those reachable fields are flattened into the record. The
timestamp is in nanoseconds. -/
structure Impression where
  variation : Variation
  experimentID : String
  layerID : String
  accountID : String
  UserID : String
  Timestamp : Int
  deriving Repr, DecidableEq

/-! ## Bucketing (`bucketing.go`) -/

/-- `runningStatus`: status of an experiment in the running state. -/
def runningStatus : String := "Running"

/-- `maxTrafficValue`: upper bound for the bucketing hash. -/
def maxTrafficValue : Nat := 10000

/-- `hashSeed`: seed of the murmur hash. -/
def hashSeed : Nat := 1

/-- `Experiment.getBucketValue` (`bucketing.go`): hash the bucketing key
(the user id concatenated with the experiment id) and scale the 32-bit
hash into `[0, 10000]`. The Go code computes
`int(math.Floor(float64(hash) / math.MaxUint32 * 10000))`; for every
32-bit hash value the double-precision computation coincides with the
exact integer floor `hash * 10000 / (2^32 - 1)` used here. -/
def Experiment.getBucketValue (e : Experiment) (bucketingID : String) : Int :=
  let hashCode := murmur3Sum32WithSeed (strBytes (bucketingID ++ e.id)) hashSeed
  Int.ofNat (hashCode * maxTrafficValue / 4294967295)

/-- Scan of a traffic-allocation list: first entry whose `endOfRange`
strictly exceeds the bucket value. -/
def findBucketList (bucketValue : Int) : List TrafficAllocation → Option Variation
  | [] => none
  | a :: rest =>
    if bucketValue < a.endOfRange then some a.Variation
    else findBucketList bucketValue rest

/-- `Experiment.findBucket` (`bucketing.go`): resolve a bucket value
against the experiment's traffic allocation; `none` models the Go `nil`
pointer return. -/
def Experiment.findBucket (e : Experiment) (bucketValue : Int) : Option Variation :=
  findBucketList bucketValue e.trafficAllocation

/-- Result of `Project.GetVariation`. `nilImpression` models the Go `nil`
return; `nilDeref` models the runtime panic raised when the Go code
dereferences the `nil` `*Variation` returned by `findBucket` (it is not a
normal return). -/
inductive BucketResult where
  | nilImpression : BucketResult
  | impression : Impression → BucketResult
  | nilDeref : BucketResult
  deriving Repr, DecidableEq

/-- `Project.GetVariation` (`bucketing.go`), sequential semantics: given
the experiment name, the user id and the wall-clock timestamp of the call,
return the result together with the project after the call (the project's
per-experiment assignment caches are its only mutable state). In the Go
source the computed path writes `*variation` into the cache without a
`nil` check, so an unresolved bucket hits `nilDeref` before any cache
write. -/
def Project.getVariation (p : Project) (experimentName userID : String)
    (now : Int) : BucketResult × Project :=
  match lookupA p.experiments experimentName with
  | none => (.nilImpression, p)
  | some experiment =>
    if experiment.status ≠ runningStatus then (.nilImpression, p)
    else
      match lookupA experiment.forcedVariations userID with
      | some forcedVariation =>
        (.impression ⟨forcedVariation, experiment.id, experiment.layerID,
          p.AccountID, userID, now⟩, p)
      | none =>
        match lookupA experiment.cachedVariations userID with
        | some cachedVariation =>
          (.impression ⟨cachedVariation, experiment.id, experiment.layerID,
            p.AccountID, userID, now⟩, p)
        | none =>
          match experiment.findBucket (experiment.getBucketValue userID) with
          | none => (.nilDeref, p)
          | some variation =>
            let experiment1 := { experiment with
              cachedVariations :=
                insertA experiment.cachedVariations userID variation }
            (.impression ⟨variation, experiment.id, experiment.layerID,
              p.AccountID, userID, now⟩,
             { p with experiments :=
                insertA p.experiments experimentName experiment1 })

/-- A sequence of calls to `Project.getVariation` for the same experiment
name and user id, one per timestamp, threading the project state. -/
def runCalls (p : Project) (experimentName userID : String) :
    List Int → List BucketResult × Project
  | [] => ([], p)
  | t :: ts =>
    let step := p.getVariation experimentName userID t
    let rest := runCalls step.2 experimentName userID ts
    (step.1 :: rest.1, rest.2)

/-- The project state after the computed path of `Project.getVariation`
writes variation `v` for `userID` into experiment `e`'s assignment cache
(the cache write `experiment.cachedVariations[userID] = *variation`). -/
def cacheWrite (p : Project) (experimentName userID : String)
    (e : Experiment) (v : Variation) : Project :=
  { p with
    experiments :=
      insertA p.experiments experimentName
        ({ e with cachedVariations := insertA e.cachedVariations userID v }) }

/-! ## Reporting (`reporter.go`) -/

/-- `event` (`reporter.go`): one reportable event record. The `uuid` field
(a freshly generated random identifier, nondeterministic) is not
modelled. -/
structure EventRec where
  entityID : String
  type : String
  timestamp : Int
  deriving Repr, DecidableEq

/-- `decision` (`reporter.go`). -/
structure Decision where
  campaignID : String
  experimentID : String
  variationID : String
  deriving Repr, DecidableEq

/-- `snapshot` (`reporter.go`). -/
structure Snapshot where
  decisions : List Decision
  events : List EventRec
  deriving Repr, DecidableEq

/-- `visitor` (`reporter.go`). -/
structure Visitor where
  ID : String
  snapshots : List Snapshot
  deriving Repr, DecidableEq

/-- `eventBatch` / `Events` (`reporter.go`). -/
structure Events where
  AccountID : String
  AnonymizeIP : Bool
  ClientName : String
  ClientVersion : Option String
  EnrichDecisions : Bool
  Visitors : List Visitor
  deriving Repr, DecidableEq

/-- `packagePath` (`reporter.go`): default client name. -/
def packagePath : String := "github.com/spothero/optimizely-sdk-go"

/-- `clientVersion` (`reporter.go`): the package-level client version
variable, `""` unless populated from build info. -/
def clientVersion : String := ""

/-- `Impression.toVisitor` (`reporter.go`): one visitor with exactly one
snapshot holding one decision and one activation event; the event's
timestamp is the impression's time in milliseconds (Go truncating `int64`
division of nanoseconds by `10^6`). -/
def Impression.toVisitor (v : Impression) : Visitor :=
  { ID := v.UserID,
    snapshots := [{
      decisions := [⟨v.layerID, v.experimentID, v.variation.id⟩],
      events := [⟨v.layerID, "campaign_activated",
        Int.tdiv v.Timestamp 1000000⟩] }] }

/-- Initial `Events` value built by `NewEvents` before options run. -/
def eventsInit : Events :=
  { AccountID := "", AnonymizeIP := true, ClientName := packagePath,
    ClientVersion := some clientVersion, EnrichDecisions := true,
    Visitors := [] }

/-- Apply the option functions in order, stopping at the first error. -/
def applyOptions : List (Events → Except String Events) → Events →
    Except String Events
  | [], e => .ok e
  | o :: os, e =>
    match o e with
    | .error err => .error err
    | .ok e1 => applyOptions os e1

/-- `NewEvents` (`reporter.go`): fold the options over the default batch,
drop an empty client version, and reject a batch with no visitors. -/
def NewEvents (options : List (Events → Except String Events)) :
    Except String Events :=
  match applyOptions options eventsInit with
  | .error err => .error err
  | .ok ev =>
    let ev1 := if ev.ClientVersion = some "" then
      { ev with ClientVersion := none } else ev
    if ev1.Visitors.length = 0 then
      .error "cannot build event with no activated variations"
    else .ok ev1

/-- `ActivatedImpression` (`reporter.go`): an option adding one impression
as a visitor; the first impression's account id (reached through the
`experiment.project` back-reference, here the flattened `accountID`
field) is adopted when the batch's account id is still `""`, and any later
mismatch is an error. -/
def ActivatedImpression (i : Impression) : Events → Except String Events :=
  fun e =>
    if e.AccountID = "" then
      .ok { e with AccountID := i.accountID,
                   Visitors := e.Visitors ++ [i.toVisitor] }
    else if e.AccountID ≠ i.accountID then
      .error "activated variations must all be in the same account"
    else .ok { e with Visitors := e.Visitors ++ [i.toVisitor] }

/-- `projectContext` (`project.go`): the scoped assignment session placed
into a `context.Context` by `Project.ToContext`; its mutex is dropped
(sequential semantics). -/
structure ProjectContext where
  project : Project
  userID : String
  impressions : List Impression
  deriving Repr, DecidableEq

/-- Result of `EventsFromContext`. `nilEvents` models the Go `nil` return;
`panicked` models the `panic(err)` raised when `NewEvents` fails on the
accumulated impressions. -/
inductive CtxEventsResult where
  | nilEvents : CtxEventsResult
  | events : Events → CtxEventsResult
  | panicked : String → CtxEventsResult
  deriving Repr, DecidableEq

/-- `EventsFromContext` (`reporter.go`), sequential semantics: the
`context.Context` argument is modelled by the optional `ProjectContext` it
may hold; the updated session is returned alongside the result. With
impressions accumulated, the batch is built from the caller's options
followed by one `ActivatedImpression` option per accumulated impression,
and the accumulation buffer is reset in the same step. -/
def EventsFromContext (pc : Option ProjectContext)
    (options : List (Events → Except String Events)) :
    CtxEventsResult × Option ProjectContext :=
  match pc with
  | none => (.nilEvents, none)
  | some c =>
    if c.impressions = [] then (.nilEvents, some c)
    else
      match NewEvents (options ++ c.impressions.map ActivatedImpression) with
      | .error err => (.panicked err, some c)
      | .ok ev => (.events ev, some { c with impressions := [] })

/-- Decidable equality for `Except` results, used to evaluate construction
outcomes on concrete datafiles. -/
instance exceptDecEq {e a : Type} [DecidableEq e] [DecidableEq a] :
    DecidableEq (Except e a) := fun x y =>
  match x, y with
  | .error u, .error v =>
    if h : u = v then .isTrue (by rw [h])
    else .isFalse (fun hc => by cases hc; exact h rfl)
  | .error u, .ok v => .isFalse (fun hc => by cases hc)
  | .ok u, .error v => .isFalse (fun hc => by cases hc)
  | .ok u, .ok v =>
    if h : u = v then .isTrue (by rw [h])
    else .isFalse (fun hc => by cases hc; exact h rfl)

/-! ## Project construction (`project.go`) -/

/-- `supportedDatafileVersion`: only version 4 is supported. -/
def supportedDatafileVersion : String := "4"

/-- `datafileVariation` (`project.go`). -/
structure DatafileVariation where
  ID : String
  Key : String
  deriving Repr, DecidableEq

/-- `datafileTrafficAllocation` (`project.go`). -/
structure DatafileTrafficAllocation where
  EntityID : String
  EndOfRange : Int
  deriving Repr, DecidableEq

/-- `datafileExperiment` (`project.go`). The Go `ForcedVariations` field is
a JSON object (`map[string]string`); it is modelled as its entry list,
keys distinct. -/
structure DatafileExperiment where
  ID : String
  Key : String
  LayerID : String
  Status : String
  Variations : List DatafileVariation
  TrafficAllocation : List DatafileTrafficAllocation
  ForcedVariations : List (String × String)
  deriving Repr, DecidableEq

/-- `datafile` (`project.go`). -/
structure Datafile where
  Version : String
  Revision : String
  ProjectID : String
  AccountID : String
  Experiments : List DatafileExperiment
  deriving Repr, DecidableEq

/-- The `variationsByID` index built in `NewProjectFromDataFile`. -/
def variationsByID (vs : List DatafileVariation) : List (String × Variation) :=
  vs.foldl (fun m v => insertA m v.ID ⟨v.ID, v.Key⟩) []

/-- The `variationsByKey` index built in `NewProjectFromDataFile`. -/
def variationsByKey (vs : List DatafileVariation) : List (String × Variation) :=
  vs.foldl (fun m v => insertA m v.Key ⟨v.ID, v.Key⟩) []

/-- The traffic-allocation loop of `NewProjectFromDataFile`: resolve each
entry's entity id against `variationsByID`, failing on the first unknown
id with an error naming it. -/
def buildAllocations (byID : List (String × Variation)) :
    List DatafileTrafficAllocation → Except String (List TrafficAllocation)
  | [] => .ok []
  | a :: rest =>
    match lookupA byID a.EntityID with
    | none => .error ("unknown variation ID " ++ a.EntityID ++
        " found in traffic allocation")
    | some variation =>
      match buildAllocations byID rest with
      | .error err => .error err
      | .ok ta => .ok (⟨a.EndOfRange, variation⟩ :: ta)

/-- The forced-variations loop of `NewProjectFromDataFile`: resolve each
entry's variation key against `variationsByKey`, silently skipping
entries whose key is unknown. -/
def buildForced (byKey : List (String × Variation)) :
    List (String × String) → List (String × Variation)
  | [] => []
  | (userID, variationName) :: rest =>
    match lookupA byKey variationName with
    | none => buildForced byKey rest
    | some variation => (userID, variation) :: buildForced byKey rest

/-- The per-experiment body of `NewProjectFromDataFile`'s loop. -/
def buildExperiment (exp : DatafileExperiment) : Except String Experiment :=
  match buildAllocations (variationsByID exp.Variations)
      exp.TrafficAllocation with
  | .error err => .error err
  | .ok ta =>
    .ok { Key := exp.Key, id := exp.ID, layerID := exp.LayerID,
          status := exp.Status, trafficAllocation := ta,
          forcedVariations :=
            buildForced (variationsByKey exp.Variations) exp.ForcedVariations,
          cachedVariations := [] }

/-- The experiment-map construction of `NewProjectFromDataFile`: build
each experiment left to right, keyed by its declared key (a later
experiment overwrites an earlier one with the same key), failing on the
first experiment whose construction fails. -/
def buildExperimentsFrom (acc : List (String × Experiment)) :
    List DatafileExperiment → Except String (List (String × Experiment))
  | [] => .ok acc
  | exp :: rest =>
    match buildExperiment exp with
    | .error err => .error err
    | .ok e => buildExperimentsFrom (insertA acc e.Key e) rest

/-- The experiment map of `NewProjectFromDataFile`, starting empty. -/
def buildExperiments (exps : List DatafileExperiment) :
    Except String (List (String × Experiment)) :=
  buildExperimentsFrom [] exps

/-- `NewProjectFromDataFile` (`project.go`): the JSON decoding of the raw
bytes is an external collaborator, so the function is modelled from its
parse result onward (`.error` for bytes that fail to parse). A version
other than `"4"` or an unknown traffic-allocation entity id fails the
whole construction; forced entries with unknown variation keys are
silently dropped. -/
def NewProjectFromDataFile (parsed : Except String Datafile) :
    Except String Project :=
  match parsed with
  | .error err => .error err
  | .ok df =>
    if df.Version ≠ supportedDatafileVersion then
      .error ("could not create project from unsupported datafile version " ++
        df.Version)
    else
      match buildExperiments df.Experiments with
      | .error err => .error err
      | .ok exps =>
        .ok { Version := df.Version, Revision := df.Revision,
              ProjectID := df.ProjectID, AccountID := df.AccountID,
              experiments := exps }

end Optimizely

/-! Sanity fixtures from the repository's tests. -/

example :
    Optimizely.murmur3Sum32WithSeed (Optimizely.strBytes "ppid11886780721") 1 =
      2256854705 := by decide

example :
    (Optimizely.Experiment.getBucketValue
      ⟨"k", "1886780721", "", "Running", [], [], []⟩ "ppid1") = 5254 := by decide

open Optimizely

/-! ## Concrete instances used by witnesses and counterexamples -/

/-- A paused experiment holding both a forced and a cached variation for
the user, used by the C5 witness. -/
def pausedExp : Experiment :=
  ⟨"a", "id1", "l1", "Paused", [⟨10000, ⟨"vid", "vkey"⟩⟩],
    [("user", ⟨"fid", "fkey"⟩)], [("user", ⟨"cid", "ckey"⟩)]⟩

/-- A project holding `pausedExp`, used by the C5 witness. -/
def pausedProj : Project := ⟨"4", "r", "pr", "acct", [("a", pausedExp)]⟩

/-- A running experiment whose forced variation for the user conflicts
with both its cached variation and its traffic allocation, used by the C6
witness. -/
def forcedExp : Experiment :=
  ⟨"a", "id1", "l1", "Running", [⟨10000, ⟨"tid", "tkey"⟩⟩],
    [("user", ⟨"fid", "fkey"⟩)], [("user", ⟨"cid", "ckey"⟩)]⟩

/-- A project holding `forcedExp`, used by the C6 witness. -/
def forcedProj : Project := ⟨"4", "r", "pr", "acct", [("a", forcedExp)]⟩

/-- The experiment id `"1886780721"` of the repository's hash fixtures. -/
def expFix1 : Experiment := ⟨"k", "1886780721", "", "Running", [], [], []⟩

/-- The experiment id `"1886780722"` of the repository's hash fixtures. -/
def expFix2 : Experiment := ⟨"k", "1886780722", "", "Running", [], [], []⟩

/-- An experiment with id `"p"`: together with user id `"bacgB+*"` the
bucketing key is `"bacgB+*p"`, whose murmur hash with seed 1 is
`4294967295 = 2^32 - 1`, the maximal 32-bit value. -/
def overflowExp : Experiment := ⟨"k", "p", "", "Running", [], [], []⟩

/-- A running experiment with a single partition entry bounded at 100 and
no forced or cached variations: user `"ppid1"` hashes to bucket 5254 and
is excluded, used for C1 and the C2 witness setup. -/
def excludedExp : Experiment :=
  ⟨"exp", "1886780721", "l1", "Running", [⟨100, ⟨"vid", "vkey"⟩⟩], [], []⟩

/-- A project holding `excludedExp`. -/
def excludedProj : Project := ⟨"4", "r", "pr", "acct", [("exp", excludedExp)]⟩

/-- A running experiment whose single partition entry covers the whole
range, so every user resolves to variation `⟨"vid", "vkey"⟩` on the
computed path; used by the C2 witness. -/
def fullRangeExp : Experiment :=
  ⟨"exp", "1886780721", "l1", "Running", [⟨10000, ⟨"vid", "vkey"⟩⟩], [], []⟩

/-- A project holding `fullRangeExp`. -/
def fullRangeProj : Project :=
  ⟨"4", "r", "pr", "acct", [("exp", fullRangeExp)]⟩

/-- A well-formed datafile experiment: one variation, a matching
allocation entry, one resolvable forced entry and one forced entry naming
an unknown variation key. -/
def expGood : DatafileExperiment :=
  ⟨"eid", "ekey", "lid", "Running", [⟨"vid1", "vkey1"⟩],
    [⟨"vid1", 10000⟩], [("u2", "vkey1"), ("user", "nosuch")]⟩

/-- The experiment built from `expGood`: the forced entry with the
unknown key `"nosuch"` is dropped. -/
def eGood : Experiment :=
  ⟨"ekey", "eid", "lid", "Running", [⟨10000, ⟨"vid1", "vkey1"⟩⟩],
    [("u2", ⟨"vid1", "vkey1"⟩)], []⟩

/-- A version-4 datafile holding `expGood`. -/
def dfGood : Datafile := ⟨"4", "rev", "pid", "acct", [expGood]⟩

/-- A datafile experiment whose allocation references the unknown entity
id `"missing"`. -/
def expBad : DatafileExperiment :=
  ⟨"eid2", "ekey2", "lid2", "Running", [⟨"vid1", "vkey1"⟩],
    [⟨"missing", 5000⟩], []⟩

/-- A version-4 datafile holding `expBad`. -/
def dfBadAlloc : Datafile := ⟨"4", "rev", "pid", "acct", [expBad]⟩

/-- An impression whose experiment's project has the empty account id
(reachable: a datafile without an `accountId` field yields
`AccountID = ""`). -/
def mixedImpEmpty : Impression := ⟨⟨"v1", "v1k"⟩, "e1", "l1", "", "user1", 0⟩

/-- An impression from account `"acctA"`. -/
def mixedImpAcct : Impression :=
  ⟨⟨"v2", "v2k"⟩, "e2", "l2", "acctA", "user2", 0⟩

/-- Two impressions from the one account `"acct"`, for the C8 witness. -/
def sameImpA : Impression :=
  ⟨⟨"v1", "v1k"⟩, "e1", "l1", "acct", "userA", 1000000⟩

/-- Second impression from account `"acct"`. -/
def sameImpB : Impression :=
  ⟨⟨"v2", "v2k"⟩, "e1", "l1", "acct", "userB", 2000000⟩

/-- An impression accumulated by `fullRangeProj`'s scoped session. -/
def drainImp : Impression :=
  ⟨⟨"vid", "vkey"⟩, "1886780721", "l1", "acct", "user", 1⟩

/-- A scoped session over `fullRangeProj` holding one accumulated
impression, for the C9 witness. -/
def drainCtx : ProjectContext := ⟨fullRangeProj, "user", [drainImp]⟩

/-! ## Helper lemmas about the decision function's paths -/

theorem lookupA_insertA_self {α : Type} (m : List (String × α)) (k : String)
    (v : α) : lookupA (insertA m k v) k = some v := by
  induction m with
  | nil => simp [insertA, lookupA]
  | cons hd tl ih =>
    obtain ⟨k1, v1⟩ := hd
    by_cases h : k1 = k
    · simp [insertA, h, lookupA]
    · simp [insertA, h, lookupA, ih]

theorem getVariation_unknown (p : Project) (en uid : String) (now : Int)
    (h : lookupA p.experiments en = none) :
    p.getVariation en uid now = (.nilImpression, p) := by
  simp [Project.getVariation, h]

theorem getVariation_not_running (p : Project) (en uid : String) (now : Int)
    (e : Experiment) (hfind : lookupA p.experiments en = some e)
    (hstatus : e.status ≠ runningStatus) :
    p.getVariation en uid now = (.nilImpression, p) := by
  simp [Project.getVariation, hfind, hstatus]

theorem getVariation_forced (p : Project) (en uid : String) (now : Int)
    (e : Experiment) (fv : Variation)
    (hfind : lookupA p.experiments en = some e)
    (hrun : e.status = runningStatus)
    (hforced : lookupA e.forcedVariations uid = some fv) :
    p.getVariation en uid now =
      (.impression ⟨fv, e.id, e.layerID, p.AccountID, uid, now⟩, p) := by
  simp [Project.getVariation, hfind, hrun, hforced]

theorem getVariation_cached (p : Project) (en uid : String) (now : Int)
    (e : Experiment) (cv : Variation)
    (hfind : lookupA p.experiments en = some e)
    (hrun : e.status = runningStatus)
    (hforced : lookupA e.forcedVariations uid = none)
    (hcached : lookupA e.cachedVariations uid = some cv) :
    p.getVariation en uid now =
      (.impression ⟨cv, e.id, e.layerID, p.AccountID, uid, now⟩, p) := by
  simp [Project.getVariation, hfind, hrun, hforced, hcached]

theorem getVariation_computed (p : Project) (en uid : String) (now : Int)
    (e : Experiment) (v : Variation)
    (hfind : lookupA p.experiments en = some e)
    (hrun : e.status = runningStatus)
    (hforced : lookupA e.forcedVariations uid = none)
    (hcached : lookupA e.cachedVariations uid = none)
    (hbucket : e.findBucket (e.getBucketValue uid) = some v) :
    p.getVariation en uid now =
      (.impression ⟨v, e.id, e.layerID, p.AccountID, uid, now⟩,
       cacheWrite p en uid e v) := by
  simp [Project.getVariation, cacheWrite, hfind, hrun, hforced, hcached,
    hbucket]

theorem getVariation_excluded (p : Project) (en uid : String) (now : Int)
    (e : Experiment)
    (hfind : lookupA p.experiments en = some e)
    (hrun : e.status = runningStatus)
    (hforced : lookupA e.forcedVariations uid = none)
    (hcached : lookupA e.cachedVariations uid = none)
    (hbucket : e.findBucket (e.getBucketValue uid) = none) :
    p.getVariation en uid now = (.nilDeref, p) := by
  simp [Project.getVariation, hfind, hrun, hforced, hcached, hbucket]

/-! ## Claim theorems: bucketing decision -/

/-- Claim C10: for every project and every experiment name absent from its
experiment mapping, `Project.GetVariation` returns `nil` and modifies no
state, for every user id, every forced/cached content of the other
experiments and every call time — an unknown experiment is silently a
no-assignment. -/
theorem C10_unknown_experiment_is_nil (p : Project) (en uid : String)
    (now : Int) (h : lookupA p.experiments en = none) :
    p.getVariation en uid now = (.nilImpression, p) :=
  getVariation_unknown p en uid now h

/-- Witness for C10 at a concrete project. -/
theorem C10_unknown_experiment_is_nil_witness :
    Project.getVariation
      ⟨"4", "rev", "proj", "acct",
        [("a", ⟨"a", "id1", "l1", "Running", [], [], []⟩)]⟩ "b" "user" 7 =
      (.nilImpression,
        ⟨"4", "rev", "proj", "acct",
          [("a", ⟨"a", "id1", "l1", "Running", [], [], []⟩)]⟩) :=
  C10_unknown_experiment_is_nil
    ⟨"4", "rev", "proj", "acct",
      [("a", ⟨"a", "id1", "l1", "Running", [], [], []⟩)]⟩ "b" "user" 7
    (by decide)

/-- Claim C5: an experiment whose status is not `"Running"` never produces
an assignment and leaves the cache untouched, even when the user has a
forced or cached variation; and the decision evaluates not-running, then
forced, then cached, then computed, in that strict order, each earlier
state terminal (stated as the full characterization of the four paths). -/
theorem C5_not_running_terminal_and_order (p : Project) (en uid : String)
    (now : Int) (e : Experiment)
    (hfind : lookupA p.experiments en = some e) :
    (e.status ≠ runningStatus →
      p.getVariation en uid now = (.nilImpression, p)) ∧
    (e.status = runningStatus → ∀ fv,
      lookupA e.forcedVariations uid = some fv →
      p.getVariation en uid now =
        (.impression ⟨fv, e.id, e.layerID, p.AccountID, uid, now⟩, p)) ∧
    (e.status = runningStatus →
      lookupA e.forcedVariations uid = none → ∀ cv,
      lookupA e.cachedVariations uid = some cv →
      p.getVariation en uid now =
        (.impression ⟨cv, e.id, e.layerID, p.AccountID, uid, now⟩, p)) ∧
    (e.status = runningStatus →
      lookupA e.forcedVariations uid = none →
      lookupA e.cachedVariations uid = none → ∀ v,
      e.findBucket (e.getBucketValue uid) = some v →
      p.getVariation en uid now =
        (.impression ⟨v, e.id, e.layerID, p.AccountID, uid, now⟩,
         cacheWrite p en uid e v)) := by
  refine ⟨fun hs => getVariation_not_running p en uid now e hfind hs,
    fun hs fv hf => getVariation_forced p en uid now e fv hfind hs hf,
    fun hs hf cv hc => getVariation_cached p en uid now e cv hfind hs hf hc,
    fun hs hf hc v hb =>
      getVariation_computed p en uid now e v hfind hs hf hc hb⟩

/-- Witness for C5: a paused experiment with both a forced and a cached
variation for the user still yields `nil` and an unchanged project. -/
theorem C5_not_running_terminal_and_order_witness :
    pausedProj.getVariation "a" "user" 3 = (.nilImpression, pausedProj) :=
  (C5_not_running_terminal_and_order pausedProj "a" "user" 3 pausedExp
    (by decide)).1 (by decide)

/-- Claim C6: for a running experiment and a user present in its
forced-variations mapping, `Project.GetVariation` returns the forced
variation — whatever the cache holds and however traffic allocation would
resolve — and the project (hence every assignment cache) is returned
unchanged. -/
theorem C6_forced_precedence (p : Project) (en uid : String) (now : Int)
    (e : Experiment) (fv : Variation)
    (hfind : lookupA p.experiments en = some e)
    (hrun : e.status = runningStatus)
    (hforced : lookupA e.forcedVariations uid = some fv) :
    p.getVariation en uid now =
      (.impression ⟨fv, e.id, e.layerID, p.AccountID, uid, now⟩, p) :=
  getVariation_forced p en uid now e fv hfind hrun hforced

/-- Witness for C6: the forced variation wins over a conflicting cached
variation and over a traffic allocation that would resolve to a different
variation, and the cache is not written. -/
theorem C6_forced_precedence_witness :
    forcedProj.getVariation "a" "user" 5 =
      (.impression ⟨⟨"fid", "fkey"⟩, "id1", "l1", "acct", "user", 5⟩,
        forcedProj) :=
  C6_forced_precedence forcedProj "a" "user" 5 forcedExp ⟨"fid", "fkey"⟩
    (by decide) (by decide) (by decide)

/-- Claim C1 (code bug): with a running experiment, no forced and no
cached variation, and a bucket value at or beyond the final
traffic-partition bound, the Go code does not return `nil` with the cache
unchanged: `findBucket` returns a `nil` `*Variation` and
`GetVariation` dereferences it when writing the cache
(`experiment.cachedVariations[userID] = *variation`), a runtime panic.
Concretely, user `"ppid1"` hashes to bucket 5254, beyond the single
partition bound 100, and the call hits the dereference. -/
theorem C1_excluded_user_hits_nil_deref :
    excludedProj.getVariation "exp" "ppid1" 0 =
      (.nilDeref, excludedProj) := by decide

/-! ## Claim C2: sticky computed assignments -/

theorem runCalls_cached (p : Project) (en uid : String) (e1 : Experiment)
    (v : Variation) (hfind : lookupA p.experiments en = some e1)
    (hrun : e1.status = runningStatus)
    (hforced : lookupA e1.forcedVariations uid = none)
    (hcached : lookupA e1.cachedVariations uid = some v) (ts : List Int) :
    (runCalls p en uid ts).1 =
      ts.map (fun t => .impression ⟨v, e1.id, e1.layerID, p.AccountID, uid, t⟩)
    ∧ (runCalls p en uid ts).2 = p := by
  induction ts with
  | nil => simp [runCalls]
  | cons t ts ih =>
    have hstep := getVariation_cached p en uid t e1 v hfind hrun hforced hcached
    simp [runCalls, hstep, ih]

/-- Claim C2: for a running experiment and a user with no forced
variation, when the first call resolves a variation `v` through the
computed path, the cache holds `v` for the user before that call returns
its impression (the returned state carries the write), and every
subsequent call — any number of them, at any timestamps — returns an
impression carrying the same variation `v`, leaving the state unchanged
for the lifetime of the experiment. -/
theorem C2_computed_assignment_is_sticky (p : Project) (en uid : String)
    (t1 : Int) (e : Experiment) (v : Variation)
    (hfind : lookupA p.experiments en = some e)
    (hrun : e.status = runningStatus)
    (hforced : lookupA e.forcedVariations uid = none)
    (hcached : lookupA e.cachedVariations uid = none)
    (hbucket : e.findBucket (e.getBucketValue uid) = some v) :
    (p.getVariation en uid t1).1 =
      .impression ⟨v, e.id, e.layerID, p.AccountID, uid, t1⟩
    ∧ (∃ e1, lookupA (p.getVariation en uid t1).2.experiments en = some e1 ∧
        lookupA e1.cachedVariations uid = some v)
    ∧ ∀ ts : List Int,
        (runCalls (p.getVariation en uid t1).2 en uid ts).1 =
          ts.map (fun t =>
            .impression ⟨v, e.id, e.layerID, p.AccountID, uid, t⟩)
        ∧ (runCalls (p.getVariation en uid t1).2 en uid ts).2 =
          (p.getVariation en uid t1).2 := by
  have hcall := getVariation_computed p en uid t1 e v hfind hrun hforced
    hcached hbucket
  rw [hcall]
  have hfind1 : lookupA (cacheWrite p en uid e v).experiments en =
      some ({ e with cachedVariations := insertA e.cachedVariations uid v }) := by
    simp [cacheWrite, lookupA_insertA_self]
  have hcached1 : lookupA (insertA e.cachedVariations uid v) uid = some v :=
    lookupA_insertA_self _ _ _
  refine ⟨rfl, ⟨_, hfind1, hcached1⟩, fun ts => ?_⟩
  have := runCalls_cached (cacheWrite p en uid e v) en uid
    ({ e with cachedVariations := insertA e.cachedVariations uid v }) v
    hfind1 hrun hforced hcached1 ts
  simpa [cacheWrite] using this

/-- Witness for C2: user `"user"` is computed into the full-range
variation on the first call; two later calls at other timestamps return
the same variation from the cache and leave the state fixed. -/
theorem C2_computed_assignment_is_sticky_witness :
    (fullRangeProj.getVariation "exp" "user" 1).1 =
      .impression ⟨⟨"vid", "vkey"⟩, "1886780721", "l1", "acct", "user", 1⟩
    ∧ (runCalls (fullRangeProj.getVariation "exp" "user" 1).2
        "exp" "user" [2, 3]).1 =
      [.impression ⟨⟨"vid", "vkey"⟩, "1886780721", "l1", "acct", "user", 2⟩,
       .impression ⟨⟨"vid", "vkey"⟩, "1886780721", "l1", "acct", "user", 3⟩] :=
  have h := C2_computed_assignment_is_sticky fullRangeProj "exp" "user" 1
    fullRangeExp ⟨"vid", "vkey"⟩ (by decide) (by decide) (by decide)
    (by decide) (by decide)
  ⟨h.1, by rw [(h.2.2 [2, 3]).1]; rfl⟩

/-! ## Claim C3: the hash and its bucket value -/

theorem mod32_lt (n : Nat) : mod32 n < 4294967296 :=
  Nat.mod_lt n (by norm_num)

theorem shiftRight_le_self (n k : Nat) : n >>> k ≤ n := by
  rw [Nat.shiftRight_eq_div_pow]
  exact Nat.div_le_self n (2 ^ k)

theorem murmurFmix_lt (h : Nat) : murmurFmix h < 4294967296 := by
  unfold murmurFmix
  have h32 : (4294967296 : Nat) = 2 ^ 32 := by norm_num
  rw [h32]
  refine Nat.xor_lt_two_pow ?_ ?_
  · rw [← h32]; exact mod32_lt _
  · exact lt_of_le_of_lt (shiftRight_le_self _ _) (by rw [← h32]; exact mod32_lt _)

theorem murmur3_lt (data : List Nat) (seed : Nat) :
    murmur3Sum32WithSeed data seed < 4294967296 := by
  unfold murmur3Sum32WithSeed
  exact murmurFmix_lt _

/-- Claim C3 (amended): the bucket value of an experiment and user is
`floor(hash * 10000 / (2^32 - 1))` where `hash` is the murmur3-32 hash,
seed 1, of the user id concatenated with the experiment id in that order
with no separator; it is deterministic (a pure function of the two ids),
lies in `[0, 10000]`, and lies in `[0, 9999]` whenever the hash is below
`2^32 - 1`; the three repository fixtures evaluate as recorded. -/
theorem C3_bucket_value_formula (e : Experiment) (userID : String) :
    e.getBucketValue userID = Int.ofNat
      (murmur3Sum32WithSeed (strBytes (userID ++ e.id)) 1 * 10000 / 4294967295)
    ∧ 0 ≤ e.getBucketValue userID
    ∧ e.getBucketValue userID ≤ 10000
    ∧ (murmur3Sum32WithSeed (strBytes (userID ++ e.id)) 1 < 4294967295 →
        e.getBucketValue userID ≤ 9999)
    ∧ expFix1.getBucketValue "ppid1" = 5254
    ∧ expFix1.getBucketValue "ppid2" = 4299
    ∧ expFix2.getBucketValue "ppid2" = 2434 := by
  have hdef : e.getBucketValue userID = Int.ofNat
      (murmur3Sum32WithSeed (strBytes (userID ++ e.id)) 1 * 10000 /
        4294967295) := rfl
  refine ⟨hdef, ?_, ?_, ?_, by decide, by decide, by decide⟩
  · rw [hdef]; exact Int.ofNat_nonneg _
  · rw [hdef]
    have hle : murmur3Sum32WithSeed (strBytes (userID ++ e.id)) 1 ≤
        4294967295 := Nat.lt_succ_iff.mp (murmur3_lt _ _)
    have hX : murmur3Sum32WithSeed (strBytes (userID ++ e.id)) 1 * 10000 /
        4294967295 ≤ 10000 := by
      have := Nat.div_le_div_right (c := 4294967295)
        (Nat.mul_le_mul_right 10000 hle)
      calc murmur3Sum32WithSeed (strBytes (userID ++ e.id)) 1 * 10000 /
          4294967295 ≤ 4294967295 * 10000 / 4294967295 := this
        _ = 10000 := by decide
    exact Int.ofNat_le.mpr hX
  · intro hlt
    rw [hdef]
    have hle : murmur3Sum32WithSeed (strBytes (userID ++ e.id)) 1 ≤
        4294967294 := by omega
    have hX : murmur3Sum32WithSeed (strBytes (userID ++ e.id)) 1 * 10000 /
        4294967295 ≤ 9999 := by
      have := Nat.div_le_div_right (c := 4294967295)
        (Nat.mul_le_mul_right 10000 hle)
      calc murmur3Sum32WithSeed (strBytes (userID ++ e.id)) 1 * 10000 /
          4294967295 ≤ 4294967294 * 10000 / 4294967295 := this
        _ = 9999 := by decide
    exact Int.ofNat_le.mpr hX

/-- Witness for C3: at the first fixture the hash is below `2^32 - 1`, so
the bucket value is within `[0, 9999]`. -/
theorem C3_bucket_value_formula_witness :
    expFix1.getBucketValue "ppid1" ≤ 9999 :=
  (C3_bucket_value_formula expFix1 "ppid1").2.2.2.1 (by decide)

/-- Counterexample to C3 as stated: the bucketing key `"bacgB+*p"`
(user id `"bacgB+*"`, experiment id `"p"`) hashes to `2^32 - 1`, and its
bucket value is 10000 — outside the claimed range `[0, 9999]`. -/
theorem C3_bucket_value_can_reach_10000 :
    overflowExp.getBucketValue "bacgB+*" = 10000
    ∧ ¬ overflowExp.getBucketValue "bacgB+*" ≤ 9999 := by decide

/-! ## Claim C4: traffic-partition resolution -/

theorem findBucketList_eq_find (bv : Int) (l : List TrafficAllocation) :
    findBucketList bv l =
      (l.find? (fun a => bv < a.endOfRange)).map TrafficAllocation.Variation := by
  induction l with
  | nil => simp [findBucketList]
  | cons a rest ih =>
    by_cases h : bv < a.endOfRange
    · simp [findBucketList, h, List.find?_cons_of_pos, decide_eq_true h]
    · rw [findBucketList, if_neg h, List.find?_cons_of_neg _ (by simpa using h)]
      exact ih

theorem findBucketList_none (bv : Int) (l : List TrafficAllocation)
    (h : ∀ a ∈ l, a.endOfRange ≤ bv) : findBucketList bv l = none := by
  induction l with
  | nil => rfl
  | cons a rest ih =>
    rw [findBucketList, if_neg (not_lt.mpr (h a (by simp)))]
    exact ih fun x hx => h x (by simp [hx])

theorem findBucketList_last (front : List TrafficAllocation)
    (lastE : TrafficAllocation)
    (h : ∀ a ∈ front, a.endOfRange < lastE.endOfRange) :
    findBucketList (lastE.endOfRange - 1) (front ++ [lastE]) =
      some lastE.Variation := by
  induction front with
  | nil =>
    rw [List.nil_append, findBucketList, if_pos (by omega)]
  | cons a rest ih =>
    rw [List.cons_append, findBucketList,
      if_neg (by have := h a (by simp); omega)]
    exact ih fun x hx => h x (by simp [hx])

/-- Claim C4: resolving a bucket value against a traffic partition
returns the variation of the first entry, in configured order, whose
bound strictly exceeds the value, and `none` when no entry's bound
exceeds it; in particular, with bounds never above the final entry's
bound, any value at or beyond that final bound resolves to nothing, and
when the earlier bounds are strictly below the final bound the value one
less than the final bound resolves to the final entry's variation. -/
theorem C4_partition_resolution (e : Experiment) (bv : Int) :
    (e.findBucket bv =
      (e.trafficAllocation.find? (fun a => bv < a.endOfRange)).map
        TrafficAllocation.Variation)
    ∧ ((∀ a ∈ e.trafficAllocation, a.endOfRange ≤ bv) →
        e.findBucket bv = none)
    ∧ (∀ front lastE, e.trafficAllocation = front ++ [lastE] →
        ((∀ a ∈ e.trafficAllocation, a.endOfRange ≤ lastE.endOfRange) →
          lastE.endOfRange ≤ bv → e.findBucket bv = none)
        ∧ ((∀ a ∈ front, a.endOfRange < lastE.endOfRange) →
          e.findBucket (lastE.endOfRange - 1) = some lastE.Variation)) := by
  refine ⟨findBucketList_eq_find bv e.trafficAllocation,
    fun h => findBucketList_none bv e.trafficAllocation h,
    fun front lastE heq => ⟨fun hall hge => ?_, fun hbelow => ?_⟩⟩
  · exact findBucketList_none bv e.trafficAllocation
      fun a ha => le_trans (hall a ha) hge
  · show findBucketList (lastE.endOfRange - 1) e.trafficAllocation =
      some lastE.Variation
    rw [heq]
    exact findBucketList_last front lastE hbelow

/-- Witness for C4 at the repository's own boundary fixture: a single
entry bounded at 100 rejects bucket value 100 and accepts 99. -/
theorem C4_partition_resolution_witness :
    excludedExp.findBucket 100 = none
    ∧ excludedExp.findBucket 99 = some ⟨"vid", "vkey"⟩ := by
  have h := C4_partition_resolution excludedExp 100
  have hlast := (h.2.2 [] ⟨100, ⟨"vid", "vkey"⟩⟩ (by decide))
  exact ⟨hlast.1 (by decide) (by decide), hlast.2 (by simp)⟩

/-! ## Claim C7: project construction from the datafile -/

theorem lookupA_insertA_isSome {α : Type} (m : List (String × α))
    (k key : String) (v : α) :
    (lookupA (insertA m k v) key).isSome ↔
      key = k ∨ (lookupA m key).isSome := by
  induction m with
  | nil =>
    by_cases h : k = key
    · simp [insertA, lookupA, h]
    · have hs : ¬key = k := fun hk => h hk.symm
      simp [insertA, lookupA, h, hs]
  | cons hd tl ih =>
    obtain ⟨k1, v1⟩ := hd
    by_cases h1 : k1 = k
    · subst h1
      by_cases h2 : k1 = key
      · subst h2
        simp [insertA, lookupA]
      · have h2s : ¬key = k1 := fun hk => h2 hk.symm
        simp [insertA, lookupA, h2, h2s]
    · by_cases h2 : k1 = key
      · subst h2
        simp [insertA, lookupA, h1]
      · have h2s : ¬key = k1 := fun hk => h2 hk.symm
        simp [insertA, lookupA, h1, h2, h2s, ih]

theorem lookupA_variationsByID (vs : List DatafileVariation) (key : String) :
    (lookupA (variationsByID vs) key).isSome ↔
      key ∈ vs.map DatafileVariation.ID := by
  have general : ∀ (l : List DatafileVariation)
      (acc : List (String × Variation)),
      (lookupA (l.foldl (fun m v => insertA m v.ID ⟨v.ID, v.Key⟩) acc)
          key).isSome ↔
        key ∈ l.map DatafileVariation.ID ∨ (lookupA acc key).isSome := by
    intro l
    induction l with
    | nil => simp
    | cons v rest ih =>
      intro acc
      rw [List.foldl_cons, ih, lookupA_insertA_isSome, List.map_cons,
        List.mem_cons]
      tauto
  rw [variationsByID, general]
  simp [lookupA]

theorem buildAllocations_ok_iff (byID : List (String × Variation))
    (l : List DatafileTrafficAllocation) :
    (∃ ta, buildAllocations byID l = .ok ta) ↔
      ∀ a ∈ l, (lookupA byID a.EntityID).isSome := by
  induction l with
  | nil => simp [buildAllocations]
  | cons a rest ih =>
    cases hfound : lookupA byID a.EntityID with
    | none =>
      simp only [buildAllocations, hfound]
      constructor
      · rintro ⟨ta, hta⟩
        exact absurd hta (by simp)
      · intro h
        have ha := h a (List.mem_cons_self a rest)
        rw [hfound] at ha
        exact absurd ha (by simp)
    | some v =>
      simp only [buildAllocations, hfound]
      constructor
      · rintro ⟨ta, hta⟩ x hx
        rcases List.mem_cons.mp hx with hx | hx
        · subst hx
          rw [hfound]
          rfl
        · refine ih.mp ?_ x hx
          cases hrest : buildAllocations byID rest with
          | error err => rw [hrest] at hta; exact absurd hta (by simp)
          | ok ta1 => exact ⟨ta1, rfl⟩
      · intro h
        obtain ⟨ta1, hta1⟩ := ih.mpr fun x hx =>
          h x (List.mem_cons_of_mem a hx)
        rw [hta1]
        exact ⟨_, rfl⟩

theorem buildAllocations_error (byID : List (String × Variation))
    (l : List DatafileTrafficAllocation) (err : String)
    (h : buildAllocations byID l = .error err) :
    ∃ a ∈ l, lookupA byID a.EntityID = none ∧
      err = "unknown variation ID " ++ a.EntityID ++
        " found in traffic allocation" := by
  induction l with
  | nil => exact absurd h (by simp [buildAllocations])
  | cons a rest ih =>
    rw [buildAllocations] at h
    cases hfound : lookupA byID a.EntityID with
    | none =>
      rw [hfound] at h
      refine ⟨a, List.mem_cons_self a rest, hfound, ?_⟩
      injection h with h1
      exact h1.symm
    | some v =>
      rw [hfound] at h
      cases hrest : buildAllocations byID rest with
      | error err1 =>
        rw [hrest] at h
        injection h with h1
        obtain ⟨x, hx, hnone, herr⟩ := ih (h1 ▸ hrest)
        exact ⟨x, List.mem_cons_of_mem a hx, hnone, herr⟩
      | ok ta1 =>
        rw [hrest] at h
        exact absurd h (by simp)

theorem buildExperiment_ok_iff (exp : DatafileExperiment) :
    (∃ e, buildExperiment exp = .ok e) ↔
      ∀ a ∈ exp.TrafficAllocation,
        a.EntityID ∈ exp.Variations.map DatafileVariation.ID := by
  constructor
  · rintro ⟨e, he⟩ a ha
    rw [buildExperiment] at he
    rw [← lookupA_variationsByID]
    cases hta : buildAllocations (variationsByID exp.Variations)
        exp.TrafficAllocation with
    | error err => rw [hta] at he; exact absurd he (by simp)
    | ok ta => exact (buildAllocations_ok_iff _ _).mp ⟨ta, hta⟩ a ha
  · intro h
    obtain ⟨ta, hta⟩ := (buildAllocations_ok_iff
      (variationsByID exp.Variations) exp.TrafficAllocation).mpr
      fun a ha => (lookupA_variationsByID _ _).mpr (h a ha)
    rw [buildExperiment, hta]
    exact ⟨_, rfl⟩

theorem buildExperiment_error (exp : DatafileExperiment) (err : String)
    (h : buildExperiment exp = .error err) :
    ∃ a ∈ exp.TrafficAllocation,
      a.EntityID ∉ exp.Variations.map DatafileVariation.ID ∧
      err = "unknown variation ID " ++ a.EntityID ++
        " found in traffic allocation" := by
  rw [buildExperiment] at h
  cases hta : buildAllocations (variationsByID exp.Variations)
      exp.TrafficAllocation with
  | ok ta => rw [hta] at h; exact absurd h (by simp)
  | error err1 =>
    rw [hta] at h
    injection h with h1
    obtain ⟨a, ha, hnone, herr⟩ := buildAllocations_error _ _ err1 hta
    refine ⟨a, ha, ?_, h1 ▸ herr⟩
    rw [← lookupA_variationsByID]
    simp [hnone]

theorem buildExperimentsFrom_ok_iff (exps : List DatafileExperiment) :
    ∀ acc, (∃ m, buildExperimentsFrom acc exps = .ok m) ↔
      ∀ exp ∈ exps, ∃ e, buildExperiment exp = .ok e := by
  induction exps with
  | nil => intro acc; simp [buildExperimentsFrom]
  | cons exp rest ih =>
    intro acc
    constructor
    · rintro ⟨m, hm⟩ x hx
      rw [buildExperimentsFrom] at hm
      cases hexp : buildExperiment exp with
      | error err => rw [hexp] at hm; exact absurd hm (by simp)
      | ok e =>
        rcases List.mem_cons.mp hx with hx | hx
        · subst hx; exact ⟨e, hexp⟩
        · rw [hexp] at hm
          exact (ih _).mp ⟨m, hm⟩ x hx
    · intro h
      obtain ⟨e, he⟩ := h exp (List.mem_cons_self exp rest)
      obtain ⟨m, hm⟩ := (ih (insertA acc e.Key e)).mpr
        fun x hx => h x (List.mem_cons_of_mem exp hx)
      rw [buildExperimentsFrom, he]
      exact ⟨m, hm⟩

theorem buildExperimentsFrom_error (exps : List DatafileExperiment) :
    ∀ acc err, buildExperimentsFrom acc exps = .error err →
      ∃ exp ∈ exps, buildExperiment exp = .error err := by
  induction exps with
  | nil => intro acc err h; exact absurd h (by simp [buildExperimentsFrom])
  | cons exp rest ih =>
    intro acc err h
    rw [buildExperimentsFrom] at h
    cases hexp : buildExperiment exp with
    | error err1 =>
      rw [hexp] at h
      injection h with h1
      exact ⟨exp, List.mem_cons_self exp rest, h1 ▸ hexp⟩
    | ok e =>
      rw [hexp] at h
      obtain ⟨x, hx, hxe⟩ := ih _ _ h
      exact ⟨x, List.mem_cons_of_mem exp hx, hxe⟩

theorem buildForced_eq_filterMap (byKey : List (String × Variation))
    (l : List (String × String)) :
    buildForced byKey l = l.filterMap
      (fun fv => (lookupA byKey fv.2).map (fun v => (fv.1, v))) := by
  induction l with
  | nil => rfl
  | cons fv rest ih =>
    obtain ⟨uid, name⟩ := fv
    cases hfound : lookupA byKey name with
    | none => simp [buildForced, List.filterMap_cons, hfound, ih]
    | some v => simp [buildForced, List.filterMap_cons, hfound, ih]

/-- Claim C7: `NewProjectFromDataFile` fails exactly when the bytes fail
to parse, the document's version differs from `"4"`, or some
traffic-allocation entry names an entity id matching no declared
variation id of its experiment; an allocation failure's error message
names the missing id; and forced-variation entries with unknown variation
keys never fail — each built experiment's forced-variations mapping is
exactly the declared entries whose variation key resolves, the unknown
ones silently dropped. -/
theorem C7_construction_errors (parsed : Except String Datafile) :
    ((∃ err, NewProjectFromDataFile parsed = .error err) ↔
      (∃ err, parsed = .error err) ∨
      (∃ df, parsed = .ok df ∧ (df.Version ≠ "4" ∨
        ∃ exp ∈ df.Experiments, ∃ a ∈ exp.TrafficAllocation,
          a.EntityID ∉ exp.Variations.map DatafileVariation.ID)))
    ∧ (∀ df, parsed = .ok df → df.Version = "4" →
        ∀ err, NewProjectFromDataFile parsed = .error err →
          ∃ exp ∈ df.Experiments, ∃ a ∈ exp.TrafficAllocation,
            a.EntityID ∉ exp.Variations.map DatafileVariation.ID ∧
            err = "unknown variation ID " ++ a.EntityID ++
              " found in traffic allocation")
    ∧ (∀ exp e, buildExperiment exp = .ok e →
        e.forcedVariations = exp.ForcedVariations.filterMap
          (fun fv => (lookupA (variationsByKey exp.Variations) fv.2).map
            (fun v => (fv.1, v)))) := by
  refine ⟨?_, ?_, ?_⟩
  · cases parsed with
    | error e => simp [NewProjectFromDataFile]
    | ok df =>
      by_cases hv : df.Version = "4"
      · have hcond : ¬df.Version ≠ supportedDatafileVersion := by
          simp [supportedDatafileVersion, hv]
        constructor
        · rintro ⟨err, herr⟩
          rw [NewProjectFromDataFile, if_neg hcond, buildExperiments] at herr
          cases hbuild : buildExperimentsFrom [] df.Experiments with
          | ok m => rw [hbuild] at herr; exact absurd herr (by simp)
          | error err1 =>
            obtain ⟨exp, hexp, hee⟩ :=
              buildExperimentsFrom_error df.Experiments [] err1 hbuild
            obtain ⟨a, ha, hnotmem, _⟩ := buildExperiment_error exp err1 hee
            exact Or.inr ⟨df, rfl, Or.inr ⟨exp, hexp, a, ha, hnotmem⟩⟩
        · rintro (⟨err, herr⟩ | ⟨df1, hdf1, hbad⟩)
          · exact absurd herr (by simp)
          · injection hdf1 with hdf1
            subst hdf1
            rcases hbad with hbad | ⟨exp, hexp, a, ha, hnotmem⟩
            · exact absurd hv hbad
            · rw [NewProjectFromDataFile, if_neg hcond, buildExperiments]
              cases hbuild : buildExperimentsFrom [] df.Experiments with
              | error err1 => exact ⟨err1, rfl⟩
              | ok m =>
                have hall := (buildExperimentsFrom_ok_iff df.Experiments
                  []).mp ⟨m, hbuild⟩
                have := (buildExperiment_ok_iff exp).mp (hall exp hexp) a ha
                exact absurd this hnotmem
      · constructor
        · intro _
          exact Or.inr ⟨df, rfl, Or.inl hv⟩
        · intro _
          refine ⟨"could not create project from unsupported datafile version "
            ++ df.Version, ?_⟩
          rw [NewProjectFromDataFile,
            if_pos (by simp [supportedDatafileVersion, hv])]
  · intro df hdf hv err herr
    subst hdf
    have hcond : ¬df.Version ≠ supportedDatafileVersion := by
      simp [supportedDatafileVersion, hv]
    rw [NewProjectFromDataFile, if_neg hcond, buildExperiments] at herr
    cases hbuild : buildExperimentsFrom [] df.Experiments with
    | ok m => rw [hbuild] at herr; exact absurd herr (by simp)
    | error err1 =>
      rw [hbuild] at herr
      injection herr with herr1
      obtain ⟨exp, hexp, hee⟩ :=
        buildExperimentsFrom_error df.Experiments [] err1 hbuild
      obtain ⟨a, ha, hnotmem, herr2⟩ := buildExperiment_error exp err1 hee
      exact ⟨exp, hexp, a, ha, hnotmem, herr1 ▸ herr2⟩
  · intro exp e he
    rw [buildExperiment] at he
    cases hta : buildAllocations (variationsByID exp.Variations)
        exp.TrafficAllocation with
    | error err => rw [hta] at he; exact absurd he (by simp)
    | ok ta =>
      rw [hta] at he
      injection he with he1
      rw [← he1]
      exact buildForced_eq_filterMap _ _

/-- Witness for C7: construction fails on `dfBadAlloc` (whose allocation
names the unknown id `"missing"`), the failure's message names that id,
and construction from `expGood` keeps the resolvable forced entry while
silently dropping the one with the unknown key. -/
theorem C7_construction_errors_witness :
    (∃ err, NewProjectFromDataFile (.ok dfBadAlloc) = .error err)
    ∧ (∃ exp ∈ dfBadAlloc.Experiments, ∃ a ∈ exp.TrafficAllocation,
        a.EntityID ∉ exp.Variations.map DatafileVariation.ID ∧
        ("unknown variation ID missing found in traffic allocation" : String)
          = "unknown variation ID " ++ a.EntityID ++
            " found in traffic allocation")
    ∧ eGood.forcedVariations = [("u2", ⟨"vid1", "vkey1"⟩)] :=
  ⟨(C7_construction_errors (.ok dfBadAlloc)).1.mpr
      (Or.inr ⟨dfBadAlloc, rfl, Or.inr (by decide)⟩),
   (C7_construction_errors (.ok dfBadAlloc)).2.1 dfBadAlloc rfl (by decide)
      "unknown variation ID missing found in traffic allocation" (by decide),
   ((C7_construction_errors (.ok dfGood)).2.2 expGood eGood
      (by decide)).trans (by decide)⟩

/-! ## Claims C8 and C9: event batches and the scoped session -/

theorem applyOptions_act_all_eq (a : String) (l : List Impression)
    (h : ∀ i ∈ l, i.accountID = a) :
    ∀ e : Events, e.AccountID = "" ∨ e.AccountID = a →
    ∃ b, applyOptions (l.map ActivatedImpression) e =
        .ok { e with AccountID := b,
                     Visitors := e.Visitors ++ l.map Impression.toVisitor }
      ∧ (l = [] → b = e.AccountID) ∧ (l ≠ [] → b = a) := by
  induction l with
  | nil =>
    intro e he
    refine ⟨e.AccountID, ?_, fun _ => rfl, fun hne => absurd rfl hne⟩
    simp [applyOptions]
  | cons i rest ih =>
    intro e he
    have hia : i.accountID = a := h i (List.mem_cons_self i rest)
    have hrest : ∀ x ∈ rest, x.accountID = a :=
      fun x hx => h x (List.mem_cons_of_mem i hx)
    by_cases hea : e.AccountID = ""
    · have hstep : ActivatedImpression i e =
          .ok { e with AccountID := i.accountID,
                       Visitors := e.Visitors ++ [i.toVisitor] } := by
        simp [ActivatedImpression, hea]
      obtain ⟨b, heq, hb1, hb2⟩ := ih hrest
        ({ e with AccountID := i.accountID,
                  Visitors := e.Visitors ++ [i.toVisitor] }) (Or.inr hia)
      have hba : b = a := by
        by_cases hr : rest = []
        · rw [hb1 hr]; exact hia
        · exact hb2 hr
      refine ⟨b, ?_, fun hcons => absurd hcons (by simp), fun _ => hba⟩
      rw [List.map_cons, applyOptions, hstep]
      exact heq.trans (by simp)
    · have heb : e.AccountID = a := by
        rcases he with he | he
        · exact absurd he hea
        · exact he
      have hstep : ActivatedImpression i e =
          .ok { e with Visitors := e.Visitors ++ [i.toVisitor] } := by
        have : ¬e.AccountID ≠ i.accountID := by rw [heb, hia]; simp
        simp [ActivatedImpression, hea, this]
      obtain ⟨b, heq, hb1, hb2⟩ := ih hrest
        ({ e with Visitors := e.Visitors ++ [i.toVisitor] }) (Or.inr heb)
      have hba : b = a := by
        by_cases hr : rest = []
        · rw [hb1 hr]; exact heb
        · exact hb2 hr
      refine ⟨b, ?_, fun hcons => absurd hcons (by simp), fun _ => hba⟩
      rw [List.map_cons, applyOptions, hstep]
      exact heq.trans (by simp)

theorem applyOptions_act_mismatch (l : List Impression) :
    ∀ e : Events, e.AccountID ≠ "" →
    (∃ j ∈ l, j.accountID ≠ e.AccountID) →
    applyOptions (l.map ActivatedImpression) e =
      .error "activated variations must all be in the same account" := by
  induction l with
  | nil =>
    rintro e he ⟨j, hj, _⟩
    exact absurd hj (by simp)
  | cons i rest ih =>
    rintro e he ⟨j, hj, hja⟩
    by_cases hi : i.accountID = e.AccountID
    · have hstep : ActivatedImpression i e =
          .ok { e with Visitors := e.Visitors ++ [i.toVisitor] } := by
        have : ¬e.AccountID ≠ i.accountID := by rw [hi]; simp
        simp [ActivatedImpression, he, this]
      rw [List.map_cons, applyOptions, hstep]
      refine ih _ he ⟨j, ?_, hja⟩
      rcases List.mem_cons.mp hj with hj1 | hj1
      · subst hj1
        exact absurd hi hja
      · exact hj1
    · have hstep : ActivatedImpression i e =
          .error "activated variations must all be in the same account" := by
        have : e.AccountID ≠ i.accountID := fun hk => hi hk.symm
        simp [ActivatedImpression, he, this]
      rw [List.map_cons, applyOptions, hstep]

theorem NewEvents_act_all_eq (a : String) (l : List Impression) (hl : l ≠ [])
    (h : ∀ i ∈ l, i.accountID = a) :
    NewEvents (l.map ActivatedImpression) =
      .ok { AccountID := a, AnonymizeIP := true, ClientName := packagePath,
            ClientVersion := none, EnrichDecisions := true,
            Visitors := l.map Impression.toVisitor } := by
  obtain ⟨b, heq, hb1, hb2⟩ :=
    applyOptions_act_all_eq a l h eventsInit (Or.inl rfl)
  have hba : b = a := hb2 hl
  subst hba
  rw [NewEvents, heq]
  cases l with
  | nil => exact absurd rfl hl
  | cons i rest => simp [eventsInit, clientVersion]

/-- Claim C8 (amended): over impressions whose account ids are all
non-empty, `NewEvents` applied to their `ActivatedImpression` options
fails exactly when no impression was contributed or two contributed
impressions carry different account ids; when all share one account id,
the batch carries that account id and one visitor per impression, in
order. (The non-empty proviso is forced: an impression whose account id
is the empty string is mistaken for the unset state and never
conflicts.) -/
theorem C8_batch_accounts (l : List Impression)
    (hne : ∀ i ∈ l, i.accountID ≠ "") :
    ((∃ err, NewEvents (l.map ActivatedImpression) = .error err) ↔
      l = [] ∨ ∃ i ∈ l, ∃ j ∈ l, i.accountID ≠ j.accountID)
    ∧ (∀ a, l ≠ [] → (∀ i ∈ l, i.accountID = a) →
        NewEvents (l.map ActivatedImpression) =
          .ok { AccountID := a, AnonymizeIP := true,
                ClientName := packagePath, ClientVersion := none,
                EnrichDecisions := true,
                Visitors := l.map Impression.toVisitor }) := by
  refine ⟨⟨?_, ?_⟩, fun a hl hall => NewEvents_act_all_eq a l hl hall⟩
  · rintro ⟨err, herr⟩
    by_cases hl : l = []
    · exact Or.inl hl
    · right
      by_contra hnd
      push_neg at hnd
      cases l with
      | nil => exact hl rfl
      | cons hd rest =>
        have hall : ∀ x ∈ hd :: rest, x.accountID = hd.accountID :=
          fun x hx => hnd x hx hd (List.mem_cons_self hd rest)
        rw [NewEvents_act_all_eq hd.accountID (hd :: rest) hl hall] at herr
        exact absurd herr (by simp)
  · rintro (hl | ⟨i, hi, j, hj, hij⟩)
    · subst hl
      exact ⟨"cannot build event with no activated variations", by decide⟩
    · cases l with
      | nil => exact absurd hi (by simp)
      | cons hd rest =>
        have hhd : hd.accountID ≠ "" :=
          hne hd (List.mem_cons_self hd rest)
        have hmis : ∃ k ∈ rest, k.accountID ≠ hd.accountID := by
          by_cases hia : i.accountID = hd.accountID
          · refine ⟨j, ?_, fun hk => hij (hia.trans hk.symm)⟩
            rcases List.mem_cons.mp hj with hj1 | hj1
            · exact absurd (hia.trans (hj1 ▸ rfl)) hij
            · exact hj1
          · refine ⟨i, ?_, hia⟩
            rcases List.mem_cons.mp hi with hi1 | hi1
            · exact absurd (hi1 ▸ rfl) hia
            · exact hi1
        have hstep : ActivatedImpression hd eventsInit =
            .ok { eventsInit with
                  AccountID := hd.accountID,
                  Visitors := eventsInit.Visitors ++ [hd.toVisitor] } := by
          simp [ActivatedImpression, eventsInit]
        have hfold : applyOptions ((hd :: rest).map ActivatedImpression)
            eventsInit =
            .error "activated variations must all be in the same account" := by
          rw [List.map_cons, applyOptions, hstep]
          exact applyOptions_act_mismatch rest _ hhd hmis
        refine ⟨"activated variations must all be in the same account", ?_⟩
        rw [NewEvents, hfold]

/-- Witness for C8: two impressions from the one account `"acct"`
assemble into a batch with that account id and two visitors in order. -/
theorem C8_batch_accounts_witness :
    NewEvents ([sameImpA, sameImpB].map ActivatedImpression) =
      .ok { AccountID := "acct", AnonymizeIP := true,
            ClientName := packagePath, ClientVersion := none,
            EnrichDecisions := true,
            Visitors := [sameImpA, sameImpB].map Impression.toVisitor } :=
  (C8_batch_accounts [sameImpA, sameImpB] (by decide)).2 "acct"
    (by decide) (by decide)

/-- Counterexample to C8 as stated: `mixedImpEmpty` (account id `""`) and
`mixedImpAcct` (account id `"acctA"`) resolve to different account ids,
yet `NewEvents` succeeds — the empty first account id is mistaken for the
unset state, so the mismatch goes undetected. -/
theorem C8_mixed_accounts_not_detected :
    mixedImpEmpty.accountID ≠ mixedImpAcct.accountID
    ∧ NewEvents ([mixedImpEmpty, mixedImpAcct].map ActivatedImpression) =
        .ok { AccountID := "acctA", AnonymizeIP := true,
              ClientName := packagePath, ClientVersion := none,
              EnrichDecisions := true,
              Visitors := [mixedImpEmpty.toVisitor,
                mixedImpAcct.toVisitor] } := by
  decide

/-- Claim C9: draining a scoped session with a non-empty accumulated
impression list (all of it accumulated through the session's own project,
so every impression carries the project's account id) yields one event
batch holding one visitor per accumulated impression, and resets the
accumulation buffer to empty in the same step; draining with zero
accumulated impressions yields `nil`, not an error and not an empty
batch. -/
theorem C9_context_drain (c : ProjectContext) :
    (c.impressions = [] →
      EventsFromContext (some c) [] = (.nilEvents, some c))
    ∧ (c.impressions ≠ [] →
      (∀ i ∈ c.impressions, i.accountID = c.project.AccountID) →
      EventsFromContext (some c) [] =
        (.events { AccountID := c.project.AccountID, AnonymizeIP := true,
                   ClientName := packagePath, ClientVersion := none,
                   EnrichDecisions := true,
                   Visitors := c.impressions.map Impression.toVisitor },
         some ({ c with impressions := [] }))) := by
  constructor
  · intro h
    simp [EventsFromContext, h]
  · intro hne hacc
    have hok := NewEvents_act_all_eq c.project.AccountID c.impressions hne hacc
    simp only [EventsFromContext]
    rw [if_neg hne, List.nil_append, hok]

/-- Witness for C9: the session `drainCtx` holds one impression; draining
returns a one-visitor batch for account `"acct"` and the reset session. -/
theorem C9_context_drain_witness :
    EventsFromContext (some drainCtx) [] =
      (.events { AccountID := drainCtx.project.AccountID,
                 AnonymizeIP := true, ClientName := packagePath,
                 ClientVersion := none, EnrichDecisions := true,
                 Visitors := drainCtx.impressions.map Impression.toVisitor },
       some ({ drainCtx with impressions := [] })) :=
  (C9_context_drain drainCtx).2 (by decide) (by decide)
